import Mathlib

/-!
Shallow embedding of `scraper.py` (Koalitionsberechnung).

The script fetches a poll table from wahlrecht.de, averages the values per
party, filters parties by the five-percent hurdle, distributes 630 seats
proportionally, enumerates all party combinations reaching a seat majority
and renders them as LaMetric display frames.

Machine floats are modelled as exact rationals (`Rat`); Python `round` is
round-half-to-even, modelled by `roundHalfEven`.  The network fetch and the
HTML query layer are out of scope: `fetch_poll_data` receives the already
extracted raw cell texts as a `PollTable`.
-/

/-- `ICON_IDS` from the source: the pool of LaMetric number-icon
identifiers (31 entries). -/
def ICON_IDS : List Nat := [
  16880, 16881, 16882, 16883, 16884, 16885, 16886, 16887,
  16888, 16889, 16879, 16890, 16891, 16892, 16893, 16894,
  16895, 16896, 16898, 16899, 16900, 16901, 16905, 16906,
  16907, 16908, 16909, 16910, 16911, 16912, 16913]

/-- `TOTAL_SEATS = 630` from the source. -/
def TOTAL_SEATS : Int := 630

/-- `MAJORITY_SEATS = TOTAL_SEATS // 2 + 1` from the source. -/
def MAJORITY_SEATS : Int := TOTAL_SEATS / 2 + 1

/-- Python `str.strip`: drop leading and trailing whitespace
(modelled on the character list of the string). -/
def trimChars (s : List Char) : List Char :=
  ((s.dropWhile Char.isWhitespace).reverse.dropWhile Char.isWhitespace).reverse

/-- Python `str.replace pat repl`: replace every non-overlapping occurrence
of `pat`, scanning left to right.  The extra fuel argument (instantiated
with the length of the string by `replaceAll`) makes the recursion
structural; each step consumes at least one character. -/
def replaceChars (pat repl : List Char) : Nat → List Char → List Char
  | _, [] => []
  | 0, s => s
  | fuel + 1, c :: cs =>
    if pat ≠ [] ∧ pat.isPrefixOf (c :: cs)
    then repl ++ replaceChars pat repl fuel ((c :: cs).drop pat.length)
    else c :: replaceChars pat repl fuel cs

/-- Python `str.replace` at adequate fuel. -/
def replaceAll (pat repl s : List Char) : List Char :=
  replaceChars pat repl s.length s

/-- Split a character list at every dot, like Python `str.split` on a
single separator character. -/
def splitOnDot (cs : List Char) : List (List Char) :=
  cs.foldr
    (fun c acc =>
      if c = '.' then [] :: acc
      else
        match acc with
        | [] => [[c]]
        | h :: t => (c :: h) :: t)
    [[]]

/-- Value of a digit string, most significant first (0 when empty). -/
def digitsVal (cs : List Char) : Nat :=
  cs.foldl (fun n c => 10 * n + (c.toNat - 48)) 0

/-- Python `float(text)` restricted to plain decimal numerals, the only
shape occurring in the poll table: digits with at most one dot, at least
one digit overall.  Anything else fails (`none`, the `ValueError` case). -/
def parseFloat? (cs : List Char) : Option Rat :=
  match splitOnDot cs with
  | [w] =>
    if w ≠ [] ∧ w.all Char.isDigit then some (digitsVal w : Rat) else none
  | [w, f] =>
    if (w ++ f) ≠ [] ∧ (w ++ f).all Char.isDigit
    then some ((digitsVal w : Rat) + (digitsVal f : Rat) / (10 : Rat) ^ f.length)
    else none
  | _ => none

/-- The cell cleaning of `fetch_poll_data`:
`cell.text.strip().replace('%','').replace(',', '.').replace('–', '0')`
followed by `float(...)` with `except ValueError: 0.0`. -/
def normalize_cell (text : String) : Rat :=
  let cleaned :=
    replaceAll ['–'] ['0']
      (replaceAll [','] ['.'] (replaceAll ['%'] [] (trimChars text.toList)))
  (parseFloat? cleaned).getD 0

/-- Floor of a rational number (the denominator is positive). -/
def ratFloor (q : Rat) : Int := Int.fdiv q.num q.den

/-- Python `round(x)` / numpy rounding: round half to even. -/
def roundHalfEven (q : Rat) : Int :=
  let n := ratFloor q
  let r := q - (n : Rat)
  if r < 1 / 2 then n
  else if 1 / 2 < r then n + 1
  else if n % 2 = 0 then n else n + 1

/-- pandas `.round(1)`: round to one decimal place, half to even. -/
def round1 (q : Rat) : Rat := (roundHalfEven (q * 10) : Rat) / 10

/-- pandas `DataFrame.mean().round(1)` for one column: arithmetic mean of
all values rounded to one decimal; an empty column yields no value
(pandas produces NaN there, modelled as absence). -/
def mean1 (vs : List Rat) : Option Rat :=
  if vs = [] then none else some (round1 (vs.sum / (vs.length : Rat)))

/-- Input of `fetch_poll_data` as delivered by the HTML layer: one header
label per institute column, the publication date of each column (present
on the page; the script never reads it) and, for each party row that was
found, the raw data cell texts after the leading label cell. -/
structure PollTable where
  institutes : List String
  dates : List Int
  rows : List (String × List String)
deriving DecidableEq

/-- Computational core of `fetch_poll_data`: for each party row normalize
the first `len(institutes)` cells, keep the row only when the value count
matches the institute count, then take the per-party mean rounded to one
decimal.  `now` is the time of the run (the script never consults it). -/
def fetch_poll_data (_now : Int) (t : PollTable) : List (String × Rat) :=
  let n := t.institutes.length
  let poll_data := t.rows.filterMap (fun row =>
    let values := (row.2.take n).map normalize_cell
    if values.length = n then some (row.1, values) else none)
  poll_data.filterMap (fun pv => (mean1 pv.2).map (fun m => (pv.1, m)))

/-- `filter_parties_by_threshold`: keep the parties whose share of the
summed support is at least five percent.  When the input is non-empty and
the total is zero the division raises `ZeroDivisionError`, modelled as
`none`. -/
def filter_parties_by_threshold (poll_data : List (String × Rat)) :
    Option (List (String × Rat)) :=
  let total := (poll_data.map Prod.snd).sum
  if poll_data ≠ [] ∧ total = 0 then none
  else some (poll_data.filter (fun pv => decide (5 ≤ pv.2 / total * 100)))

/-- `calculate_seat_distribution`: each party receives
`round(votes / total_votes * TOTAL_SEATS)` seats; no remainder correction
is applied afterwards. -/
def calculate_seat_distribution (filtered : List (String × Rat)) :
    List (String × Int) :=
  filtered.map (fun pv =>
    (pv.1, roundHalfEven (pv.2 / (filtered.map Prod.snd).sum * (TOTAL_SEATS : Rat))))

/-- A coalition as built by `calculate_majority_coalitions`:
`{"parties": list(combo), "seats": seats}`. -/
structure Coalition where
  parties : List String
  seats : Int
deriving DecidableEq

/-- `itertools.combinations`: all sublists of a given length, enumerated in
lexicographic order of the positions, each keeping the input order. -/
def combinations {α : Type} : Nat → List α → List (List α)
  | 0, _ => [[]]
  | _ + 1, [] => []
  | n + 1, x :: xs => ((combinations n xs).map (fun t => x :: t)) ++ combinations (n + 1) xs

/-- Python dict access `seat_distribution[p]` (all looked-up keys are
present, so the fallback value is never used). -/
def seatLookup (sd : List (String × Int)) (p : String) : Int :=
  (List.lookup p sd).getD 0

/-- `sum(seat_distribution[p] for p in combo)`. -/
def coalitionSeats (sd : List (String × Int)) (combo : List String) : Int :=
  (combo.map (seatLookup sd)).sum

/-- Inner loop of `calculate_majority_coalitions` for one combination size
`r`: keep each combination whose summed seats reach `MAJORITY_SEATS`. -/
def majorityBlock (sd : List (String × Int)) (ps : List String) (r : Nat) :
    List Coalition :=
  (combinations r ps).filterMap (fun combo =>
    if MAJORITY_SEATS ≤ coalitionSeats sd combo
    then some (Coalition.mk combo (coalitionSeats sd combo)) else none)

/-- `calculate_majority_coalitions`: `for r in range(2, len(parties) + 1)`
over all combinations of the keys, appending each majority combination in
enumeration order (no sorting pass follows). -/
def calculate_majority_coalitions (sd : List (String × Int)) : List Coalition :=
  (List.range' 2 ((sd.map Prod.fst).length - 1)).flatMap
    (majorityBlock sd (sd.map Prod.fst))

/-- The abbreviation substitutions of `split_text`:
`text.replace("GRÜNE", "GRÜN").replace("DIE LINKE", "LINKE").replace("Sonstige", "Sonst")`. -/
def substituteAbbrev (cs : List Char) : List Char :=
  replaceAll ("Sonstige").toList ("Sonst").toList
    (replaceAll ("DIE LINKE").toList ("LINKE").toList
      (replaceAll ("GRÜNE").toList ("GRÜN").toList cs))

/-- The chunking of `split_text`:
`[text[i:i+7] for i in range(0, len(text), 7)]`, i.e. consecutive slices of
seven characters with a possibly shorter final slice.  The fuel argument
(instantiated with the length) makes the recursion structural. -/
def chunks7 : Nat → List Char → List (List Char)
  | _, [] => []
  | 0, cs => [cs]
  | fuel + 1, c :: cs => ((c :: cs).take 7) :: chunks7 fuel ((c :: cs).drop 7)

/-- `split_text`: abbreviation substitution followed by 7-character
chunking. -/
def split_text (text : String) : List String :=
  let t := substituteAbbrev text.toList
  (chunks7 t.length t).map String.mk

/-- Python `" + ".join(coalition["parties"])`. -/
def joinPlus : List String → String
  | [] => ""
  | [p] => p
  | p :: ps => p ++ " + " ++ joinPlus ps

/-- One LaMetric frame `{"text": ..., "icon": ...}`. -/
structure Frame where
  text : String
  icon : String
deriving DecidableEq

/-- The frames emitted for one coalition in `format_for_lametric`: one
frame per name segment, then a label frame and a seat-count frame, all
with the icon of the coalition index. -/
def coalitionFrames (idx : Nat) (c : Coalition) : List Frame :=
  let icon := toString (ICON_IDS.getD idx 0)
  ((split_text (joinPlus c.parties)).map (fun seg => Frame.mk seg icon)) ++
    [Frame.mk ("Gesamt:") icon, Frame.mk (toString c.seats ++ " Sitze") icon]

/-- The display loop of `format_for_lametric` over the enumerated, already
truncated coalition list.  The Boolean records whether the
`idx >= len(ICON_IDS)` warning-and-break branch was taken. -/
def formatLoop : List (Nat × Coalition) → List Frame × Bool
  | [] => ([], false)
  | (idx, c) :: rest =>
    if ICON_IDS.length ≤ idx then ([], true)
    else (coalitionFrames idx c ++ (formatLoop rest).1, (formatLoop rest).2)

/-- `format_for_lametric`: the placeholder frame for an empty coalition
list, otherwise the loop over `enumerate(coalitions[:10])`. -/
def format_for_lametric (cs : List Coalition) : List Frame × Bool :=
  if cs = [] then ([Frame.mk ("Keine Mehrh.") (toString (ICON_IDS.getD 0 0))], false)
  else formatLoop ((cs.take 10).enum)

/-- Ordering key claimed by the specification for the coalition list:
ascending party count first, descending combined seats second. -/
def claimKey (a b : Coalition) : Bool :=
  decide (a.parties.length < b.parties.length) ||
    (decide (a.parties.length = b.parties.length) && decide (b.seats ≤ a.seats))

/-- Adjacent-pair check that a coalition list is sorted by `claimKey`. -/
def sortedByClaimKey : List Coalition → Bool
  | a :: b :: rest => claimKey a b && sortedByClaimKey (b :: rest)
  | _ => true

/-- Membership in `combinations n xs`: exactly the sublists of `xs` of
length `n` (itertools.combinations yields each index-subsequence once). -/
theorem mem_combinations {α : Type} :
    ∀ (xs : List α) (n : Nat) (l : List α),
      l ∈ combinations n xs ↔ (l.Sublist xs ∧ l.length = n) := by
  intro xs
  induction xs with
  | nil =>
    intro n l
    cases n with
    | zero =>
      constructor
      · intro h
        have hl : l = [] := by simpa [combinations] using h
        subst hl
        exact ⟨List.Sublist.refl _, rfl⟩
      · rintro ⟨hs, hn⟩
        have hl : l = [] := List.length_eq_zero.mp hn
        subst hl
        simp [combinations]
    | succ m =>
      constructor
      · intro h
        simp [combinations] at h
      · rintro ⟨hs, hn⟩
        have hl : l = [] := List.sublist_nil.mp hs
        subst hl
        simp at hn
  | cons x xs ih =>
    intro n l
    cases n with
    | zero =>
      constructor
      · intro h
        have hl : l = [] := by simpa [combinations] using h
        subst hl
        exact ⟨List.nil_sublist _, rfl⟩
      · rintro ⟨hs, hn⟩
        have hl : l = [] := List.length_eq_zero.mp hn
        subst hl
        simp [combinations]
    | succ m =>
      constructor
      · intro h
        simp only [combinations, List.mem_append, List.mem_map] at h
        rcases h with ⟨t, ht, rfl⟩ | h
        · rcases (ih m t).mp ht with ⟨hs, hlen⟩
          exact ⟨List.Sublist.cons₂ x hs, by simp [hlen]⟩
        · rcases (ih (m + 1) l).mp h with ⟨hs, hlen⟩
          exact ⟨List.Sublist.cons x hs, hlen⟩
      · rintro ⟨hs, hn⟩
        cases hs with
        | cons _ hsub =>
          simp only [combinations, List.mem_append, List.mem_map]
          right
          exact (ih (m + 1) l).mpr ⟨hsub, hn⟩
        | cons₂ _ hsub =>
          rename_i t
          simp only [combinations, List.mem_append, List.mem_map]
          left
          refine ⟨t, ?_, rfl⟩
          exact (ih m t).mpr ⟨hsub, by simpa using hn⟩

/-- Membership in one size block of the enumerator. -/
theorem mem_majorityBlock {sd : List (String × Int)} {ps : List String}
    {r : Nat} {c : Coalition} :
    c ∈ majorityBlock sd ps r ↔
      ∃ combo, (combo.Sublist ps ∧ combo.length = r) ∧
        MAJORITY_SEATS ≤ coalitionSeats sd combo ∧
        c = Coalition.mk combo (coalitionSeats sd combo) := by
  unfold majorityBlock
  rw [List.mem_filterMap]
  constructor
  · rintro ⟨combo, hmem, hsome⟩
    by_cases hm : MAJORITY_SEATS ≤ coalitionSeats sd combo
    · rw [if_pos hm] at hsome
      exact ⟨combo, (mem_combinations ps r combo).mp hmem, hm,
        (Option.some_inj.mp hsome).symm⟩
    · rw [if_neg hm] at hsome
      cases hsome
  · rintro ⟨combo, hc, hm, rfl⟩
    exact ⟨combo, (mem_combinations ps r combo).mpr hc, by rw [if_pos hm]⟩

/-- Lower bound for members of `List.range'` with step one. -/
theorem mem_range1_lb : ∀ (n s m : Nat), m ∈ List.range' s n → s ≤ m := by
  intro n s m h
  exact (List.mem_range'_1.mp h).1

/-- Full characterization of the output of `calculate_majority_coalitions`:
exactly the coalitions built from a sublist of the key list with at least
two members whose summed seats reach `MAJORITY_SEATS`. -/
theorem mem_calculate_majority_coalitions {sd : List (String × Int)}
    {c : Coalition} :
    c ∈ calculate_majority_coalitions sd ↔
      (c.parties.Sublist (sd.map Prod.fst) ∧ 2 ≤ c.parties.length ∧
       MAJORITY_SEATS ≤ coalitionSeats sd c.parties ∧
       c.seats = coalitionSeats sd c.parties) := by
  unfold calculate_majority_coalitions
  rw [List.mem_flatMap]
  constructor
  · rintro ⟨r, hr, hc⟩
    rcases mem_majorityBlock.mp hc with ⟨combo, ⟨hsub, hlen⟩, hm, rfl⟩
    have h2 : 2 ≤ r := mem_range1_lb _ _ _ hr
    exact ⟨hsub, by simpa [hlen] using h2, hm, rfl⟩
  · rintro ⟨hsub, h2, hm, hseats⟩
    refine ⟨c.parties.length, ?_, ?_⟩
    · have hle := hsub.length_le
      rw [List.mem_range'_1]
      omega
    · rw [mem_majorityBlock]
      refine ⟨c.parties, ⟨hsub, rfl⟩, hm, ?_⟩
      cases c with
      | mk ps st =>
        simp only at hseats
        simp [hseats]

/-- Every coalition of one size block carries a party list of that size. -/
theorem majorityBlock_length {sd : List (String × Int)} {ps : List String}
    {r : Nat} {c : Coalition} (h : c ∈ majorityBlock sd ps r) :
    c.parties.length = r := by
  rcases mem_majorityBlock.mp h with ⟨combo, ⟨_, hlen⟩, _, rfl⟩
  simpa using hlen

/-- `List.range'` with step one is weakly increasing. -/
theorem range1_pairwise_le : ∀ (n s : Nat), (List.range' s n).Pairwise (fun a b => a ≤ b) := by
  intro n
  induction n with
  | zero => intro s; exact List.Pairwise.nil
  | succ m ih =>
    intro s
    refine List.Pairwise.cons ?_ (ih (s + 1))
    intro b hb
    have hs := mem_range1_lb _ _ _ hb
    omega

/-- Concatenating the size blocks of a weakly increasing size list keeps
the party counts weakly increasing across the whole output. -/
theorem flatMap_blocks_pairwise (sd : List (String × Int)) (ps : List String) :
    ∀ rs : List Nat, rs.Pairwise (fun a b => a ≤ b) →
      (rs.flatMap (majorityBlock sd ps)).Pairwise
        (fun a b : Coalition => a.parties.length ≤ b.parties.length) := by
  intro rs
  induction rs with
  | nil => intro _; simp
  | cons r rest ih =>
    intro h
    rw [List.pairwise_cons] at h
    obtain ⟨hr, hrest⟩ := h
    rw [List.flatMap_cons, List.pairwise_append]
    refine ⟨?_, ih hrest, ?_⟩
    · apply List.pairwise_of_forall_mem_list
      intro a ha b hb
      rw [majorityBlock_length ha, majorityBlock_length hb]
    · intro a ha b hb
      rcases List.mem_flatMap.mp hb with ⟨r2, hr2, hb2⟩
      rw [majorityBlock_length ha, majorityBlock_length hb2]
      exact hr r2 hr2

/-- Every chunk produced by `chunks7` at adequate fuel has between one and
seven characters. -/
theorem chunks7_mem_length :
    ∀ (fuel : Nat) (l chunk : List Char), l.length ≤ fuel →
      chunk ∈ chunks7 fuel l → 1 ≤ chunk.length ∧ chunk.length ≤ 7 := by
  intro fuel
  induction fuel with
  | zero =>
    intro l chunk hle h
    have hl : l = [] := List.length_eq_zero.mp (Nat.le_zero.mp hle)
    subst hl
    simp [chunks7] at h
  | succ m ih =>
    intro l chunk hle h
    cases l with
    | nil => simp [chunks7] at h
    | cons c cs =>
      simp only [chunks7, List.mem_cons] at h
      rcases h with rfl | h2
      · rw [List.length_take]
        simp only [List.length_cons]
        omega
      · refine ih ((c :: cs).drop 7) chunk ?_ h2
        rw [List.length_drop]
        simp only [List.length_cons] at hle ⊢
        omega

/-- At adequate fuel the chunks concatenate back to the input: `chunks7`
splits the text, it does not truncate it. -/
theorem chunks7_join :
    ∀ (fuel : Nat) (l : List Char), l.length ≤ fuel →
      (chunks7 fuel l).flatten = l := by
  intro fuel
  induction fuel with
  | zero =>
    intro l h
    have hl : l = [] := List.length_eq_zero.mp (Nat.le_zero.mp h)
    subst hl
    rfl
  | succ m ih =>
    intro l h
    cases l with
    | nil => rfl
    | cons c cs =>
      have hlen : ((c :: cs).drop 7).length ≤ m := by
        rw [List.length_drop]
        simp only [List.length_cons] at h ⊢
        omega
      simp only [chunks7, List.flatten_cons, ih _ hlen, List.take_append_drop]

/-- Indices produced by `List.enum` are bounded by the list length. -/
theorem enum_fst_lt {α : Type} {l : List α} {p : Nat × α} (h : p ∈ l.enum) :
    p.1 < l.length :=
  List.fst_lt_of_mem_enum h

/-- The display loop never takes the warning-and-break branch when every
index is below the icon-pool size. -/
theorem formatLoop_snd_false :
    ∀ l : List (Nat × Coalition), (∀ p ∈ l, p.1 < ICON_IDS.length) →
      (formatLoop l).2 = false := by
  intro l
  induction l with
  | nil => intro _; rfl
  | cons p rest ih =>
    intro h
    obtain ⟨i, c⟩ := p
    have hi : i < ICON_IDS.length := h (i, c) (List.mem_cons_self _ _)
    simp only [formatLoop, if_neg (Nat.not_le.mpr hi)]
    exact ih (fun q hq => h q (List.mem_cons_of_mem _ hq))

/-- C1 counterexample: on the seat distribution CDU/CSU 100, SPD 300,
GRÜNE 200 the enumerator outputs the coalition SPD+GRÜNE (500 seats) even
though it lacks the anchor party CDU/CSU, so a coalition without the
designated anchor party does appear in the output. -/
theorem claim_c1_counterexample :
    Coalition.mk ["SPD", "GRÜNE"] 500 ∈
      calculate_majority_coalitions [("CDU/CSU", 100), ("SPD", 300), ("GRÜNE", 200)] ∧
    ("CDU/CSU" : String) ∉ ["SPD", "GRÜNE"] := by decide

/-- C1 (amended): `calculate_majority_coalitions` enforces no anchor
requirement; every combination of at least two parties whose summed seats
reach `MAJORITY_SEATS` appears in the output, also when any designated
anchor party is absent from it. -/
theorem claim_c1_no_anchor_filter (sd : List (String × Int)) (anchor : String)
    (combo : List String) (h1 : combo.Sublist (sd.map Prod.fst))
    (h2 : 2 ≤ combo.length) (h3 : MAJORITY_SEATS ≤ coalitionSeats sd combo)
    (_h4 : anchor ∉ combo) :
    Coalition.mk combo (coalitionSeats sd combo) ∈ calculate_majority_coalitions sd :=
  mem_calculate_majority_coalitions.mpr ⟨h1, h2, h3, rfl⟩

/-- Witness for C1 (amended) at the concrete counterexample input with
anchor CDU/CSU. -/
theorem claim_c1_no_anchor_filter_witness :
    Coalition.mk ["SPD", "GRÜNE"]
        (coalitionSeats [("CDU/CSU", 100), ("SPD", 300), ("GRÜNE", 200)] ["SPD", "GRÜNE"]) ∈
      calculate_majority_coalitions [("CDU/CSU", 100), ("SPD", 300), ("GRÜNE", 200)] :=
  claim_c1_no_anchor_filter _ ("CDU/CSU") _ (by decide) (by decide) (by decide) (by decide)

/-- C2 counterexample: for a party whose three in-window raw cells are
12.0, absent (the dash placeholder) and 14.0, the computed average is 8.7:
the absent cell is averaged in as zero, so the average is not 13.0 as the
claim states. -/
theorem claim_c2_counterexample :
    fetch_poll_data 100
        (PollTable.mk ["A", "B", "C"] [100, 100, 100] [("X", ["12,0", "–", "14,0"])]) =
      [("X", 87/10)] ∧
    ((87 : Rat)/10 ≠ 13) := by decide!

/-- C2 (amended): the dash placeholder for a missing observation is
normalized to the numeric value 0.0 and is included in the per-party mean;
for raw values 12.0, absent, 14.0 the computed average is 8.7. -/
theorem claim_c2_sentinel_included :
    normalize_cell ("–") = 0 ∧ mean1 [12, 0, 14] = some (87/10) := by decide!

/-- C3 counterexample: with input CDU/CSU 90, Sonstige 10 the share of
Sonstige is ten percent, and Sonstige is a member of the eligible set the
filter returns. -/
theorem claim_c3_counterexample :
    ("Sonstige", (10 : Rat)) ∈
      (filter_parties_by_threshold [("CDU/CSU", 90), ("Sonstige", 10)]).getD [] := by
  decide!

/-- C3 (amended): `filter_parties_by_threshold` applies only the
five-percent share threshold and treats "Sonstige" like any other party:
whenever the filter succeeds and the Sonstige share reaches five percent,
Sonstige is in the resulting eligible set. -/
theorem claim_c3_sonstige_retained (poll_data : List (String × Rat)) (v : Rat)
    (result : List (String × Rat))
    (hok : filter_parties_by_threshold poll_data = some result)
    (hmem : ("Sonstige", v) ∈ poll_data)
    (hth : 5 ≤ v / (poll_data.map Prod.snd).sum * 100) :
    ("Sonstige", v) ∈ result := by
  simp only [filter_parties_by_threshold] at hok
  split at hok
  · simp at hok
  · rw [Option.some_inj] at hok
    subst hok
    rw [List.mem_filter]
    exact ⟨hmem, by simpa using hth⟩

/-- Witness for C3 (amended) at the concrete counterexample input. -/
theorem claim_c3_sonstige_retained_witness :
    ("Sonstige", (10 : Rat)) ∈ [("CDU/CSU", (90 : Rat)), ("Sonstige", 10)] :=
  claim_c3_sonstige_retained [("CDU/CSU", 90), ("Sonstige", 10)] 10
    [("CDU/CSU", 90), ("Sonstige", 10)] (by decide!) (by decide!) (by decide!)

/-- C4 counterexample: with the run time 100 and a column published at
time 50 — far outside the trailing 14-day window — that column's value
10.0 still contributes: the average is 15.0 and not the 20.0 that
discarding the stale column would give. -/
theorem claim_c4_counterexample :
    fetch_poll_data 100
        (PollTable.mk ["A", "B"] [99, 50] [("X", ["20,0", "10,0"])]) =
      [("X", 15)] ∧
    ((50 : Int) < 100 - 14) ∧ ((15 : Rat) ≠ 20) := by decide!

/-- C4 (amended): `fetch_poll_data` performs no observation-window
filtering: its output is independent of the column publication dates and
of the run time, and every parsed column contributes to the mean (in the
concrete instance, the stale column is averaged in). -/
theorem claim_c4_no_window (inst : List String) (d1 d2 : List Int)
    (rows : List (String × List String)) (n1 n2 : Int) :
    fetch_poll_data n1 (PollTable.mk inst d1 rows) =
      fetch_poll_data n2 (PollTable.mk inst d2 rows) ∧
    fetch_poll_data 100
        (PollTable.mk ["A", "B"] [99, 50] [("X", ["20,0", "10,0"])]) =
      [("X", 15)] :=
  ⟨rfl, by decide!⟩

/-- C5: `MAJORITY_SEATS` is 316 = 630 / 2 + 1, and the enumerator's output
contains a coalition exactly when its party list is a combination of the
input keys of cardinality at least two (and hence at most the full set
size) whose summed seats reach 316, the seats field carrying that sum. -/
theorem claim_c5_enumeration_range (sd : List (String × Int)) (c : Coalition) :
    MAJORITY_SEATS = 316 ∧
    (c ∈ calculate_majority_coalitions sd ↔
      (c.parties.Sublist (sd.map Prod.fst) ∧ 2 ≤ c.parties.length ∧
       316 ≤ coalitionSeats sd c.parties ∧
       c.seats = coalitionSeats sd c.parties)) := by
  have h : MAJORITY_SEATS = 316 := by decide
  refine ⟨h, ?_⟩
  rw [mem_calculate_majority_coalitions, h]

/-- C6 counterexample: on the seat distribution A 316, B 0, C 400 the
output order is (A,B) 316, (A,C) 716, (B,C) 400, (A,B,C) 716 — the
equal-sized coalition (A,C) with 716 seats comes after (A,B) with 316
seats, so the list is not sorted by ascending party count with descending
combined strength as secondary key. -/
theorem claim_c6_counterexample :
    sortedByClaimKey
      (calculate_majority_coalitions [("A", 316), ("B", 0), ("C", 400)]) = false := by
  decide

/-- C6 (amended): the output is ordered by ascending party count only —
the combination size loop ascends — and within one party count the
coalitions stay in first-encountered enumeration order; no sorting pass by
descending combined strength is applied. -/
theorem claim_c6_ascending_count (sd : List (String × Int)) :
    (calculate_majority_coalitions sd).Pairwise
      (fun a b : Coalition => a.parties.length ≤ b.parties.length) := by
  unfold calculate_majority_coalitions
  exact flatMap_blocks_pairwise sd (sd.map Prod.fst) _ (range1_pairwise_le _ _)

/-- C7: with `TOTAL_SEATS = 630`, every party of a non-empty filtered
input receives exactly `round(votes / total * 630)` seats (round half to
even, on the exact rational share), and no remainder correction follows:
for four equal parties each share is 157.5, each rounds to 158 and the
seat counts sum to 632 ≠ 630. -/
theorem claim_c7_seat_rule (filtered : List (String × Rat)) (_h : filtered ≠ []) :
    TOTAL_SEATS = 630 ∧
    calculate_seat_distribution filtered =
      filtered.map (fun pv =>
        (pv.1, roundHalfEven (pv.2 / (filtered.map Prod.snd).sum * (TOTAL_SEATS : Rat)))) ∧
    ((calculate_seat_distribution [("A", 1), ("B", 1), ("C", 1), ("D", 1)]).map
        Prod.snd).sum = 632 :=
  ⟨rfl, rfl, by decide!⟩

/-- Witness for C7 at a one-party input: the single party gets all 630
seats. -/
theorem claim_c7_seat_rule_witness :
    calculate_seat_distribution [("X", (2 : Rat))] = [("X", (630 : Int))] := by
  have h := (claim_c7_seat_rule [("X", (2 : Rat))] (by decide)).2.1
  rw [h]
  decide!

/-- C8 counterexample: rendering the coalition SPD+FDP emits the
party-name segment "DP", which has two characters, not exactly seven — the
formatter neither truncates the name list to one 7-character segment nor
pads short segments. -/
theorem claim_c8_counterexample :
    Frame.mk ("DP") ("16880") ∈
      (format_for_lametric [Coalition.mk ["SPD", "FDP"] 400]).1 ∧
    ("DP" : String).length ≠ 7 := by decide

/-- C8 (amended): every party-name segment emitted by `split_text` has at
least one and at most seven characters — the abbreviated name is split
into consecutive 7-character chunks with a possibly shorter final chunk —
and the segments concatenate back to the abbreviated name, so nothing is
truncated and nothing is padded. -/
theorem claim_c8_segments (text : String) :
    (∀ seg ∈ split_text text, 1 ≤ seg.length ∧ seg.length ≤ 7) ∧
    ((split_text text).map String.toList).flatten = substituteAbbrev text.toList := by
  constructor
  · intro seg hseg
    simp only [split_text, List.mem_map] at hseg
    rcases hseg with ⟨chunk, hchunk, rfl⟩
    exact chunks7_mem_length _ _ _ (Nat.le_refl _) hchunk
  · simp only [split_text, List.map_map]
    have hid : (String.toList ∘ String.mk) = id := by
      funext cs
      rfl
    rw [hid, List.map_id]
    exact chunks7_join _ _ (Nat.le_refl _)

/-- Witness for C8 (amended) at the coalition text CDU/CSU + SPD, whose
second segment is the six-character " + SPD". -/
theorem claim_c8_segments_witness :
    1 ≤ (" + SPD" : String).length ∧ (" + SPD" : String).length ≤ 7 :=
  (claim_c8_segments ("CDU/CSU + SPD")).1 (" + SPD") (by decide)

/-- C9: on an empty party mapping the eligibility filter returns an empty
eligible set without raising (no division is evaluated) and the coalition
enumerator returns no coalitions. -/
theorem claim_c9_empty_input :
    filter_parties_by_threshold [] = some [] ∧
    calculate_majority_coalitions [] = [] := by decide

/-- C10: the icon-pool-exhaustion warning-and-break branch of
`format_for_lametric` is unreachable: the coalition list is truncated to
ten entries before enumeration while `ICON_IDS` has 31 entries, so every
rendered coalition is assigned an icon identifier and the loop never
breaks early. -/
theorem claim_c10_icon_branch_unreachable (cs : List Coalition) :
    (format_for_lametric cs).2 = false := by
  unfold format_for_lametric
  split
  · rfl
  · apply formatLoop_snd_false
    intro p hp
    have h1 : p.1 < (cs.take 10).length := enum_fst_lt hp
    have h2 : (cs.take 10).length ≤ 10 := by
      rw [List.length_take]
      omega
    have h3 : ICON_IDS.length = 31 := rfl
    omega
